import Mathlib

/-!
Go_Movies: the in-memory movie registry of `main.go`

A shallow embedding of the five HTTP handlers of `main.go` (`getMovies`,
`getMovie`, `deleteMovie`, `createMovie`, `updateMovie`) and of the seeding
done by `main`, followed by theorems about them.

Modelling conventions

* The global slice `movies` is a `List Movie`; every handler takes the current
  value of the slice and returns the response it writes together with the new
  value of the slice.
* `*Director` is an `Option Director` (`nil` is `none`); directors are never
  mutated, so sharing of the pointer is not observable.
* `json.NewDecoder(r.Body).Decode(&movie)` is library code: the handlers take
  the decoder as a parameter `decode : String → Option Movie`, where `none`
  stands for a non-nil `err` and `some m` for the decoded value.
* `uuid.New().String()` is library code: `createMovie` takes the generated
  string as a parameter.
* A response is its status code and its payload.  `json.NewEncoder(w).Encode(v)`
  answers with status 200 and payload `v`; `http.Error(w, msg, code)` answers
  with status `code` and the message `msg`.
-/

namespace GoMovies

/-- Director struct of `main.go`. -/
structure Director where
  Firstname : String
  Lastname : String
  deriving DecidableEq, Repr

/-- Movie struct of `main.go`; the `*Director` pointer is an `Option`. -/
structure Movie where
  ID : String
  Isbn : String
  Title : String
  Director : Option Director
  deriving DecidableEq, Repr

/-- What a handler writes as the body of its response. -/
inductive Payload where
  | movie (item : Movie)
  | movies (items : List Movie)
  | text (message : String)
  deriving DecidableEq, Repr

/-- The response of a handler: status code and payload. -/
structure Response where
  status : Nat
  body : Payload
  deriving DecidableEq, Repr

/-- The constant `http.StatusOK`. -/
def StatusOK : Nat := 200

/-- The constant `http.StatusBadRequest`. -/
def StatusBadRequest : Nat := 400

/-- The constant `http.StatusNotFound`. -/
def StatusNotFound : Nat := 404

/-- The call `http.Error(w, message, code)`. -/
def httpError (message : String) (code : Nat) : Response :=
  ⟨code, Payload.text message⟩

/-- The call `json.NewEncoder(w).Encode(item)` for one movie. -/
def encodeMovie (item : Movie) : Response :=
  ⟨StatusOK, Payload.movie item⟩

/-- The call `json.NewEncoder(w).Encode(movies)` for the whole slice. -/
def encodeMovies (items : List Movie) : Response :=
  ⟨StatusOK, Payload.movies items⟩

/-- The slice expression `append(movies[:index], movies[index+1:]...)`. -/
def removeIndex (movies : List Movie) (index : Nat) : List Movie :=
  movies.take index ++ movies.drop (index + 1)

/-- Handler `getMovies`: the whole slice, unchanged. -/
def getMovies (movies : List Movie) : Response × List Movie :=
  (encodeMovies movies, movies)

/-- The `for _, item := range movies` loop of `getMovie`, over the records
still to be visited. -/
def getMovieLoop (id : String) : List Movie → Response
  | [] => httpError "Movie not found" StatusNotFound
  | item :: rest =>
    if item.ID = id then encodeMovie item else getMovieLoop id rest

/-- Handler `getMovie`. -/
def getMovie (movies : List Movie) (id : String) : Response × List Movie :=
  (getMovieLoop id movies, movies)

/-- The `for index, item := range movies` loop of `deleteMovie`: `index` is
the loop index and the list argument holds the records from `index` on. -/
def deleteMovieLoop (movies : List Movie) (id : String) :
    Nat → List Movie → Response × List Movie
  | _, [] => (httpError "Movie not found" StatusNotFound, movies)
  | index, item :: rest =>
    if item.ID = id then
      let movies1 := removeIndex movies index
      (encodeMovies movies1, movies1)
    else deleteMovieLoop movies id (index + 1) rest

/-- Handler `deleteMovie`. -/
def deleteMovie (movies : List Movie) (id : String) : Response × List Movie :=
  deleteMovieLoop movies id 0 movies

/-- Handler `createMovie`; `g` is the string returned by `uuid.New().String()`. -/
def createMovie (decode : String → Option Movie) (movies : List Movie)
    (body : String) (g : String) : Response × List Movie :=
  match decode body with
  | none => (httpError "Invalid JSON" StatusBadRequest, movies)
  | some movie =>
    let movie1 := { movie with ID := g }
    (encodeMovie movie1, movies ++ [movie1])

/-- The `for index, item := range movies` loop of `updateMovie`. -/
def updateMovieLoop (decode : String → Option Movie) (movies : List Movie)
    (id : String) (body : String) : Nat → List Movie → Response × List Movie
  | _, [] => (httpError "Movie not found" StatusNotFound, movies)
  | index, item :: rest =>
    if item.ID = id then
      let movies1 := removeIndex movies index
      match decode body with
      | none => (httpError "Invalid request body" StatusBadRequest, movies1)
      | some movie =>
        let movie1 := { movie with ID := id }
        (encodeMovie movie1, movies1 ++ [movie1])
    else updateMovieLoop decode movies id body (index + 1) rest

/-- Handler `updateMovie`. -/
def updateMovie (decode : String → Option Movie) (movies : List Movie)
    (id : String) (body : String) : Response × List Movie :=
  updateMovieLoop decode movies id body 0 movies

/-- The two records `main` appends to the empty slice before serving. -/
def seedMovies : List Movie :=
  ([] ++ [⟨"1", "001", "Movie One", some ⟨"John", "Doe"⟩⟩]) ++
    [⟨"2", "002", "Movie Two", some ⟨"Jane", "Doe"⟩⟩]

/-- The requests the router of `main` dispatches; `create` carries the body
and the identifier the generator returns for this request. -/
inductive Request where
  | list
  | get (id : String)
  | create (body : String) (g : String)
  | update (id : String) (body : String)
  | delete (id : String)
  deriving DecidableEq, Repr

/-- The route table of `main`: one request against the current slice. -/
def handle (decode : String → Option Movie) (movies : List Movie) :
    Request → Response × List Movie
  | Request.list => getMovies movies
  | Request.get id => getMovie movies id
  | Request.create body g => createMovie decode movies body g
  | Request.update id body => updateMovie decode movies id body
  | Request.delete id => deleteMovie movies id

/-- The identifiers of a collection, in collection order. -/
def ids (movies : List Movie) : List String :=
  movies.map (fun item => item.ID)

/-- A create request draws an identifier no record of the collection carries;
the other requests are unconstrained. -/
def FreshCreate (movies : List Movie) : Request → Prop
  | Request.create _ g => g ∉ ids movies
  | _ => True

/-- Freshness of a request is decidable. -/
instance decidableFreshCreate (movies : List Movie) :
    (req : Request) → Decidable (FreshCreate movies req)
  | Request.create _ g => inferInstanceAs (Decidable (g ∉ ids movies))
  | Request.list => isTrue trivial
  | Request.get _ => isTrue trivial
  | Request.update _ _ => isTrue trivial
  | Request.delete _ => isTrue trivial

/-- The collections reachable from the seeded one by requests whose creates
draw fresh identifiers. -/
inductive Reachable (decode : String → Option Movie) : List Movie → Prop where
  | seed : Reachable decode seedMovies
  | step (movies : List Movie) (req : Request) :
      Reachable decode movies → FreshCreate movies req →
      Reachable decode (handle decode movies req).2

/-- A decoder used to instantiate the theorems on concrete requests: the JSON
text `null` leaves the zero Movie, two fixed texts decode to fixed records, and
everything else is an error. -/
def sampleDecode (body : String) : Option Movie :=
  if body = "null" then some ⟨"", "", "", none⟩
  else if body = "three" then some ⟨"", "003", "Movie Three", some ⟨"A", "B"⟩⟩
  else if body = "three-with-id" then some ⟨"2", "003", "Movie Three", some ⟨"A", "B"⟩⟩
  else none

/-! Shared lemmas on the loops -/

theorem removeIndex_middle (done : List Movie) (item : Movie) (rest : List Movie) :
    removeIndex (done ++ item :: rest) done.length = done ++ rest := by
  simp [removeIndex]

theorem exists_first_match (id : String) (c : List Movie)
    (h : ∃ m ∈ c, m.ID = id) :
    ∃ pre m post, c = pre ++ m :: post ∧ m.ID = id ∧ ∀ x ∈ pre, x.ID ≠ id := by
  induction c with
  | nil => simp at h
  | cons item rest ih =>
    by_cases hi : item.ID = id
    · exact ⟨[], item, rest, rfl, hi, by simp⟩
    · have h1 : ∃ m ∈ rest, m.ID = id := by
        obtain ⟨m, hm, hmid⟩ := h
        rcases List.mem_cons.mp hm with rfl | hm
        · exact absurd hmid hi
        · exact ⟨m, hm, hmid⟩
      obtain ⟨pre, m, post, hc, hm, hpre⟩ := ih h1
      refine ⟨item :: pre, m, post, by simp [hc], hm, ?_⟩
      intro x hx
      rcases List.mem_cons.mp hx with rfl | hx
      · exact hi
      · exact hpre x hx

theorem getMovieLoop_absent (id : String) (c : List Movie)
    (h : ∀ m ∈ c, m.ID ≠ id) :
    getMovieLoop id c = httpError "Movie not found" StatusNotFound := by
  induction c with
  | nil => rfl
  | cons item rest ih =>
    have hi : item.ID ≠ id := h item (List.mem_cons_self _ _)
    simp only [getMovieLoop, if_neg hi]
    exact ih (fun m hm => h m (List.mem_cons_of_mem _ hm))

theorem getMovieLoop_first (id : String) (pre : List Movie) (m : Movie)
    (post : List Movie) (hpre : ∀ x ∈ pre, x.ID ≠ id) (hm : m.ID = id) :
    getMovieLoop id (pre ++ m :: post) = encodeMovie m := by
  induction pre with
  | nil => simp [getMovieLoop, hm]
  | cons item rest ih =>
    have hi : item.ID ≠ id := hpre item (List.mem_cons_self _ _)
    simp only [List.cons_append, getMovieLoop, if_neg hi]
    exact ih (fun x hx => hpre x (List.mem_cons_of_mem _ hx))

theorem deleteMovieLoop_absent (movies : List Movie) (id : String) (rest : List Movie)
    (h : ∀ m ∈ rest, m.ID ≠ id) (index : Nat) :
    deleteMovieLoop movies id index rest =
      (httpError "Movie not found" StatusNotFound, movies) := by
  induction rest generalizing index with
  | nil => rfl
  | cons item rest ih =>
    have hi : item.ID ≠ id := h item (List.mem_cons_self _ _)
    simp only [deleteMovieLoop, if_neg hi]
    exact ih (fun m hm => h m (List.mem_cons_of_mem _ hm)) (index + 1)

theorem deleteMovieLoop_first (id : String) (pre : List Movie) (m : Movie)
    (post : List Movie) (hpre : ∀ x ∈ pre, x.ID ≠ id) (hm : m.ID = id)
    (done : List Movie) :
    deleteMovieLoop (done ++ (pre ++ m :: post)) id done.length (pre ++ m :: post) =
      (encodeMovies (done ++ (pre ++ post)), done ++ (pre ++ post)) := by
  induction pre generalizing done with
  | nil =>
    simp only [List.nil_append, deleteMovieLoop, if_pos hm, removeIndex_middle]
  | cons item rest ih =>
    have hi : item.ID ≠ id := hpre item (List.mem_cons_self _ _)
    simp only [List.cons_append, deleteMovieLoop, if_neg hi]
    have h1 := ih (fun x hx => hpre x (List.mem_cons_of_mem _ hx)) (done ++ [item])
    simpa using h1

theorem updateMovieLoop_absent (decode : String → Option Movie) (movies : List Movie)
    (id body : String) (rest : List Movie) (h : ∀ m ∈ rest, m.ID ≠ id) (index : Nat) :
    updateMovieLoop decode movies id body index rest =
      (httpError "Movie not found" StatusNotFound, movies) := by
  induction rest generalizing index with
  | nil => rfl
  | cons item rest ih =>
    have hi : item.ID ≠ id := h item (List.mem_cons_self _ _)
    simp only [updateMovieLoop, if_neg hi]
    exact ih (fun m hm => h m (List.mem_cons_of_mem _ hm)) (index + 1)

theorem updateMovieLoop_first (decode : String → Option Movie) (id body : String)
    (pre : List Movie) (m : Movie) (post : List Movie)
    (hpre : ∀ x ∈ pre, x.ID ≠ id) (hm : m.ID = id) (done : List Movie) :
    updateMovieLoop decode (done ++ (pre ++ m :: post)) id body done.length
        (pre ++ m :: post) =
      match decode body with
      | none => (httpError "Invalid request body" StatusBadRequest, done ++ (pre ++ post))
      | some movie =>
        (encodeMovie ⟨id, movie.Isbn, movie.Title, movie.Director⟩,
          (done ++ (pre ++ post)) ++ [⟨id, movie.Isbn, movie.Title, movie.Director⟩]) := by
  induction pre generalizing done with
  | nil =>
    simp only [List.nil_append, updateMovieLoop, if_pos hm, removeIndex_middle]
  | cons item rest ih =>
    have hi : item.ID ≠ id := hpre item (List.mem_cons_self _ _)
    simp only [List.cons_append, updateMovieLoop, if_neg hi]
    have h1 := ih (fun x hx => hpre x (List.mem_cons_of_mem _ hx)) (done ++ [item])
    simpa using h1

theorem deleteMovie_first (id : String) (pre : List Movie) (m : Movie)
    (post : List Movie) (hpre : ∀ x ∈ pre, x.ID ≠ id) (hm : m.ID = id) :
    deleteMovie (pre ++ m :: post) id = (encodeMovies (pre ++ post), pre ++ post) := by
  have h := deleteMovieLoop_first id pre m post hpre hm []
  simpa [deleteMovie] using h

theorem updateMovie_first (decode : String → Option Movie) (id body : String)
    (pre : List Movie) (m : Movie) (post : List Movie)
    (hpre : ∀ x ∈ pre, x.ID ≠ id) (hm : m.ID = id) :
    updateMovie decode (pre ++ m :: post) id body =
      match decode body with
      | none => (httpError "Invalid request body" StatusBadRequest, pre ++ post)
      | some movie =>
        (encodeMovie ⟨id, movie.Isbn, movie.Title, movie.Director⟩,
          (pre ++ post) ++ [⟨id, movie.Isbn, movie.Title, movie.Director⟩]) := by
  have h := updateMovieLoop_first decode id body pre m post hpre hm []
  simpa [updateMovie] using h

theorem absent_or_present (id : String) (c : List Movie) :
    (∀ m ∈ c, m.ID ≠ id) ∨ ∃ m ∈ c, m.ID = id := by
  by_cases h : ∃ m ∈ c, m.ID = id
  · exact Or.inr h
  · left
    intro m hm hid
    exact h ⟨m, hm, hid⟩

theorem not_mem_ids_iff (id : String) (c : List Movie) :
    id ∉ ids c ↔ ∀ m ∈ c, m.ID ≠ id := by
  simp [ids]

theorem nodup_remove (pre : List Movie) (m : Movie) (post : List Movie)
    (h : (ids (pre ++ m :: post)).Nodup) :
    (ids (pre ++ post)).Nodup ∧ m.ID ∉ ids (pre ++ post) := by
  have h1 : (m.ID :: (ids pre ++ ids post)).Nodup := by
    have h2 : (ids pre ++ m.ID :: ids post).Nodup := by simpa [ids] using h
    exact List.nodup_middle.mp h2
  have h3 := List.nodup_cons.mp h1
  constructor
  · simpa [ids] using h3.2
  · simpa [ids] using h3.1

theorem nodup_append_fresh (c : List Movie) (r : Movie)
    (h : (ids c).Nodup) (hr : r.ID ∉ ids c) : (ids (c ++ [r])).Nodup := by
  have h1 : (ids c ++ [r.ID]).Nodup := by
    rw [List.nodup_append]
    refine ⟨h, List.nodup_singleton _, ?_⟩
    intro a ha hb
    rw [List.mem_singleton] at hb
    subst hb
    exact hr ha
  simpa [ids] using h1

theorem seedMovies_nodup : (ids seedMovies).Nodup := by decide

theorem handle_nodup (decode : String → Option Movie) (c : List Movie) (req : Request)
    (h : (ids c).Nodup) (hf : FreshCreate c req) :
    (ids (handle decode c req).2).Nodup := by
  cases req with
  | list => exact h
  | get id => exact h
  | create body g =>
    simp only [handle, createMovie]
    cases decode body with
    | none => exact h
    | some b => exact nodup_append_fresh c _ h hf
  | update id body =>
    simp only [handle]
    rcases absent_or_present id c with ha | hp
    · rw [updateMovie, updateMovieLoop_absent decode c id body c ha 0]
      exact h
    · obtain ⟨pre, m, post, hc, hm, hpre⟩ := exists_first_match id c hp
      subst hc
      rw [updateMovie_first decode id body pre m post hpre hm]
      have hrem := nodup_remove pre m post h
      cases decode body with
      | none => exact hrem.1
      | some b =>
        refine nodup_append_fresh _ _ hrem.1 ?_
        have h2 := hrem.2
        rw [hm] at h2
        exact h2
  | delete id =>
    simp only [handle]
    rcases absent_or_present id c with ha | hp
    · rw [deleteMovie, deleteMovieLoop_absent c id c ha 0]
      exact h
    · obtain ⟨pre, m, post, hc, hm, hpre⟩ := exists_first_match id c hp
      subst hc
      rw [deleteMovie_first id pre m post hpre hm]
      exact (nodup_remove pre m post h).1

theorem reachable_nodup (decode : String → Option Movie) (c : List Movie)
    (h : Reachable decode c) : (ids c).Nodup := by
  induction h with
  | seed => exact seedMovies_nodup
  | step movies req _ hf ih => exact handle_nodup decode movies req ih hf

/-! The claims -/

/-- C1. Create postcondition: on a body that decodes to `b`, `createMovie`
answers 200 with a record `r` and leaves the collection equal to `c ++ [r]`;
`r` carries the generated identifier `g` (whatever identifier `b` carried) and
the isbn, title and director of `b`; List on the new collection returns
`c ++ [r]`, which has exactly one more record than `c` and agrees with `c` on
every earlier position; and when `g` is non-empty and carried by no record of
`c`, the identifier of `r` is non-empty and differs from every identifier of
`c`. -/
theorem createMovie_postcondition (decode : String → Option Movie) (c : List Movie)
    (body : String) (b : Movie) (g : String) (hb : decode body = some b) :
    ∃ r : Movie,
      createMovie decode c body g = (⟨200, Payload.movie r⟩, c ++ [r]) ∧
      r.ID = g ∧ r.Isbn = b.Isbn ∧ r.Title = b.Title ∧ r.Director = b.Director ∧
      getMovies (createMovie decode c body g).2 =
        (⟨200, Payload.movies (c ++ [r])⟩, c ++ [r]) ∧
      (createMovie decode c body g).2.length = c.length + 1 ∧
      (createMovie decode c body g).2.take c.length = c ∧
      (createMovie decode c body g).2.drop c.length = [r] ∧
      (g ≠ "" → g ∉ ids c → r.ID ≠ "" ∧ ∀ m ∈ c, m.ID ≠ r.ID) := by
  refine ⟨⟨g, b.Isbn, b.Title, b.Director⟩, ?_, rfl, rfl, rfl, rfl, ?_, ?_, ?_, ?_, ?_⟩
  · simp [createMovie, hb, encodeMovie, StatusOK]
  · simp [createMovie, hb, getMovies, encodeMovies, StatusOK]
  · simp [createMovie, hb]
  · simp [createMovie, hb]
  · simp [createMovie, hb]
  · intro hne hfresh
    exact ⟨hne, (not_mem_ids_iff g c).mp hfresh⟩

theorem createMovie_postcondition_witness :
    sampleDecode "three-with-id" = some ⟨"2", "003", "Movie Three", some ⟨"A", "B"⟩⟩ ∧
    ∃ r : Movie,
      createMovie sampleDecode seedMovies "three-with-id" "u-3" =
        (⟨200, Payload.movie r⟩, seedMovies ++ [r]) ∧
      r.ID = "u-3" ∧ r.Isbn = "003" ∧ r.Title = "Movie Three" ∧
      r.Director = some ⟨"A", "B"⟩ ∧
      getMovies (createMovie sampleDecode seedMovies "three-with-id" "u-3").2 =
        (⟨200, Payload.movies (seedMovies ++ [r])⟩, seedMovies ++ [r]) ∧
      (createMovie sampleDecode seedMovies "three-with-id" "u-3").2.length =
        seedMovies.length + 1 ∧
      (createMovie sampleDecode seedMovies "three-with-id" "u-3").2.take
        seedMovies.length = seedMovies ∧
      (createMovie sampleDecode seedMovies "three-with-id" "u-3").2.drop
        seedMovies.length = [r] ∧
      ("u-3" ≠ "" → "u-3" ∉ ids seedMovies → r.ID ≠ "" ∧ ∀ m ∈ seedMovies, m.ID ≠ r.ID) :=
  ⟨by decide, createMovie_postcondition sampleDecode seedMovies "three-with-id"
    ⟨"2", "003", "Movie Three", some ⟨"A", "B"⟩⟩ "u-3" (by decide)⟩

/-- C2. Create-then-Get round trip: when the body decodes to `b` and the
generated identifier `g` is carried by no record of `c`, `getMovie g` on the
collection produced by `createMovie` answers 200 with the record of
identifier `g` and the isbn, title and director of `b`. -/
theorem create_then_get (decode : String → Option Movie) (c : List Movie)
    (body : String) (b : Movie) (g : String) (hb : decode body = some b)
    (hg : g ∉ ids c) :
    (getMovie (createMovie decode c body g).2 g).1 =
      ⟨200, Payload.movie ⟨g, b.Isbn, b.Title, b.Director⟩⟩ := by
  have hc : (createMovie decode c body g).2 =
      c ++ (⟨g, b.Isbn, b.Title, b.Director⟩ :: []) := by
    simp [createMovie, hb]
  rw [hc]
  simp only [getMovie]
  rw [getMovieLoop_first g c _ [] ((not_mem_ids_iff g c).mp hg) rfl]
  rfl

theorem create_then_get_witness :
    sampleDecode "three" = some ⟨"", "003", "Movie Three", some ⟨"A", "B"⟩⟩ ∧
    "u-3" ∉ ids seedMovies ∧
    (getMovie (createMovie sampleDecode seedMovies "three" "u-3").2 "u-3").1 =
      ⟨200, Payload.movie ⟨"u-3", "003", "Movie Three", some ⟨"A", "B"⟩⟩⟩ :=
  ⟨by decide, by decide,
    create_then_get sampleDecode seedMovies "three"
      ⟨"", "003", "Movie Three", some ⟨"A", "B"⟩⟩ "u-3" (by decide) (by decide)⟩

/-- C3. Delete-then-Get: in every collection reachable from the seeded one
(creates drawing identifiers not present in the collection), if
`deleteMovie id` answers 200 then `getMovie id` on the resulting collection
answers 404 "Movie not found". -/
theorem delete_then_get (decode : String → Option Movie) (c : List Movie)
    (id : String) (hr : Reachable decode c)
    (hd : (deleteMovie c id).1.status = 200) :
    (getMovie (deleteMovie c id).2 id).1 = ⟨404, Payload.text "Movie not found"⟩ := by
  rcases absent_or_present id c with ha | hp
  · rw [deleteMovie, deleteMovieLoop_absent c id c ha 0] at hd
    simp [httpError, StatusNotFound] at hd
  · obtain ⟨pre, m, post, hc, hm, hpre⟩ := exists_first_match id c hp
    subst hc
    have hn := (nodup_remove pre m post (reachable_nodup decode _ hr)).2
    rw [hm] at hn
    rw [deleteMovie_first id pre m post hpre hm]
    simp only [getMovie]
    rw [getMovieLoop_absent id _ ((not_mem_ids_iff id _).mp hn)]
    rfl

theorem delete_then_get_witness :
    Reachable sampleDecode
      (handle sampleDecode seedMovies (Request.create "three" "u-3")).2 ∧
    (deleteMovie (handle sampleDecode seedMovies (Request.create "three" "u-3")).2
      "u-3").1.status = 200 ∧
    (getMovie (deleteMovie
      (handle sampleDecode seedMovies (Request.create "three" "u-3")).2 "u-3").2
      "u-3").1 = ⟨404, Payload.text "Movie not found"⟩ :=
  ⟨Reachable.step _ _ Reachable.seed (by decide), by decide,
    delete_then_get sampleDecode _ "u-3"
      (Reachable.step _ _ Reachable.seed (by decide)) (by decide)⟩

/-- C4. Update postcondition: when some record of `c` carries `id` and the
body decodes to `b` (whatever identifier `b` carries), `updateMovie id`
answers 200 with the record of identifier `id` and the isbn, title and
director of `b`; the resulting collection is `c` with the first record whose
identifier is `id` removed, the other records in their original order, and the
returned record appended at the end; its length is the length of `c`. -/
theorem updateMovie_postcondition (decode : String → Option Movie) (c : List Movie)
    (id body : String) (b : Movie) (hid : ∃ m ∈ c, m.ID = id)
    (hb : decode body = some b) :
    ∃ pre old post,
      c = pre ++ old :: post ∧ old.ID = id ∧ (∀ x ∈ pre, x.ID ≠ id) ∧
      updateMovie decode c id body =
        (⟨200, Payload.movie ⟨id, b.Isbn, b.Title, b.Director⟩⟩,
          pre ++ post ++ [⟨id, b.Isbn, b.Title, b.Director⟩]) ∧
      (updateMovie decode c id body).2.length = c.length := by
  obtain ⟨pre, old, post, hc, hold, hpre⟩ := exists_first_match id c hid
  subst hc
  have hu := updateMovie_first decode id body pre old post hpre hold
  rw [hb] at hu
  refine ⟨pre, old, post, rfl, hold, hpre, ?_, ?_⟩
  · rw [hu]
    rfl
  · rw [hu]
    simp

theorem updateMovie_postcondition_witness :
    (∃ m ∈ seedMovies, m.ID = "1") ∧
    sampleDecode "three-with-id" = some ⟨"2", "003", "Movie Three", some ⟨"A", "B"⟩⟩ ∧
    ∃ pre old post,
      seedMovies = pre ++ old :: post ∧ old.ID = "1" ∧ (∀ x ∈ pre, x.ID ≠ "1") ∧
      updateMovie sampleDecode seedMovies "1" "three-with-id" =
        (⟨200, Payload.movie ⟨"1", "003", "Movie Three", some ⟨"A", "B"⟩⟩⟩,
          pre ++ post ++ [⟨"1", "003", "Movie Three", some ⟨"A", "B"⟩⟩]) ∧
      (updateMovie sampleDecode seedMovies "1" "three-with-id").2.length =
        seedMovies.length :=
  ⟨by decide, by decide,
    updateMovie_postcondition sampleDecode seedMovies "1" "three-with-id"
      ⟨"2", "003", "Movie Three", some ⟨"A", "B"⟩⟩ (by decide) (by decide)⟩

/-- C5. Delete postcondition: when some record of `c` carries `id`,
`deleteMovie id` answers 200, the resulting collection is `c` with the first
record whose identifier is `id` removed and the other records in their
original order, its length is one less than the length of `c`, and the
response body is that remaining collection. -/
theorem deleteMovie_postcondition (c : List Movie) (id : String)
    (hid : ∃ m ∈ c, m.ID = id) :
    ∃ pre old post,
      c = pre ++ old :: post ∧ old.ID = id ∧ (∀ x ∈ pre, x.ID ≠ id) ∧
      deleteMovie c id = (⟨200, Payload.movies (pre ++ post)⟩, pre ++ post) ∧
      (deleteMovie c id).2.length + 1 = c.length := by
  obtain ⟨pre, old, post, hc, hold, hpre⟩ := exists_first_match id c hid
  subst hc
  have hd := deleteMovie_first id pre old post hpre hold
  refine ⟨pre, old, post, rfl, hold, hpre, ?_, ?_⟩
  · rw [hd]
    rfl
  · rw [hd]
    simp
    omega

theorem deleteMovie_postcondition_witness :
    (∃ m ∈ seedMovies, m.ID = "2") ∧
    ∃ pre old post,
      seedMovies = pre ++ old :: post ∧ old.ID = "2" ∧ (∀ x ∈ pre, x.ID ≠ "2") ∧
      deleteMovie seedMovies "2" = (⟨200, Payload.movies (pre ++ post)⟩, pre ++ post) ∧
      (deleteMovie seedMovies "2").2.length + 1 = seedMovies.length :=
  ⟨by decide, deleteMovie_postcondition seedMovies "2" (by decide)⟩

/-- C6. Not-Found: when no record of `c` carries `id`, each of `getMovie id`,
`updateMovie id body` (for every body and decoder) and `deleteMovie id`
answers 404 with the message "Movie not found" and leaves the collection
equal to `c`; and when some record of `c` carries `id`, none of the three
answers with status 404. -/
theorem not_found_exactly_when_absent (decode : String → Option Movie)
    (c : List Movie) (id body : String) :
    ((∀ m ∈ c, m.ID ≠ id) →
      getMovie c id = (⟨404, Payload.text "Movie not found"⟩, c) ∧
      updateMovie decode c id body = (⟨404, Payload.text "Movie not found"⟩, c) ∧
      deleteMovie c id = (⟨404, Payload.text "Movie not found"⟩, c)) ∧
    ((∃ m ∈ c, m.ID = id) →
      (getMovie c id).1.status ≠ 404 ∧
      (updateMovie decode c id body).1.status ≠ 404 ∧
      (deleteMovie c id).1.status ≠ 404) := by
  constructor
  · intro ha
    refine ⟨?_, ?_, ?_⟩
    · simp only [getMovie]
      rw [getMovieLoop_absent id c ha]
      rfl
    · rw [updateMovie, updateMovieLoop_absent decode c id body c ha 0]
      rfl
    · rw [deleteMovie, deleteMovieLoop_absent c id c ha 0]
      rfl
  · intro hp
    obtain ⟨pre, m, post, hc, hm, hpre⟩ := exists_first_match id c hp
    subst hc
    refine ⟨?_, ?_, ?_⟩
    · simp only [getMovie]
      rw [getMovieLoop_first id pre m post hpre hm]
      simp [encodeMovie, StatusOK]
    · rw [updateMovie_first decode id body pre m post hpre hm]
      cases decode body <;> simp [encodeMovie, httpError, StatusOK, StatusBadRequest]
    · rw [deleteMovie_first id pre m post hpre hm]
      simp [encodeMovies, StatusOK]

theorem not_found_exactly_when_absent_witness :
    ((∀ m ∈ seedMovies, m.ID ≠ "9") ∧
      getMovie seedMovies "9" = (⟨404, Payload.text "Movie not found"⟩, seedMovies) ∧
      updateMovie sampleDecode seedMovies "9" "zzz" =
        (⟨404, Payload.text "Movie not found"⟩, seedMovies) ∧
      deleteMovie seedMovies "9" =
        (⟨404, Payload.text "Movie not found"⟩, seedMovies)) ∧
    ((∃ m ∈ seedMovies, m.ID = "2") ∧
      (getMovie seedMovies "2").1.status ≠ 404 ∧
      (updateMovie sampleDecode seedMovies "2" "zzz").1.status ≠ 404 ∧
      (deleteMovie seedMovies "2").1.status ≠ 404) :=
  ⟨⟨by decide,
    (not_found_exactly_when_absent sampleDecode seedMovies "9" "zzz").1 (by decide)⟩,
   ⟨by decide,
    (not_found_exactly_when_absent sampleDecode seedMovies "2" "zzz").2 (by decide)⟩⟩

/-- C7. Create rejects malformed bodies atomically: when the body does not
decode, `createMovie` answers 400 with the message "Invalid JSON" (no record
is produced) and leaves the collection equal to `c`. -/
theorem createMovie_malformed (decode : String → Option Movie) (c : List Movie)
    (body g : String) (hb : decode body = none) :
    createMovie decode c body g = (⟨400, Payload.text "Invalid JSON"⟩, c) := by
  simp [createMovie, hb, httpError, StatusBadRequest]

theorem createMovie_malformed_witness :
    sampleDecode "zzz" = none ∧
    createMovie sampleDecode seedMovies "zzz" "u-3" =
      (⟨400, Payload.text "Invalid JSON"⟩, seedMovies) :=
  ⟨by decide, createMovie_malformed sampleDecode seedMovies "zzz" "u-3" (by decide)⟩

/-- C8. Get returns the first match: when some record of `c` carries `id`,
`getMovie id` answers 200 with the first record in collection order whose
identifier is `id`, exactly as stored; otherwise it answers 404 "Movie not
found"; in both cases the collection is left equal to `c`. -/
theorem getMovie_first_match (c : List Movie) (id : String) :
    ((∃ m ∈ c, m.ID = id) →
      ∃ pre m post,
        c = pre ++ m :: post ∧ m.ID = id ∧ (∀ x ∈ pre, x.ID ≠ id) ∧
        getMovie c id = (⟨200, Payload.movie m⟩, c)) ∧
    ((∀ m ∈ c, m.ID ≠ id) →
      getMovie c id = (⟨404, Payload.text "Movie not found"⟩, c)) := by
  constructor
  · intro hp
    obtain ⟨pre, m, post, hc, hm, hpre⟩ := exists_first_match id c hp
    subst hc
    refine ⟨pre, m, post, rfl, hm, hpre, ?_⟩
    simp only [getMovie]
    rw [getMovieLoop_first id pre m post hpre hm]
    rfl
  · intro ha
    simp only [getMovie]
    rw [getMovieLoop_absent id c ha]
    rfl

theorem getMovie_first_match_witness :
    ((∃ m ∈ seedMovies ++ seedMovies, m.ID = "2") ∧
      ∃ pre m post,
        seedMovies ++ seedMovies = pre ++ m :: post ∧ m.ID = "2" ∧
        (∀ x ∈ pre, x.ID ≠ "2") ∧
        getMovie (seedMovies ++ seedMovies) "2" =
          (⟨200, Payload.movie m⟩, seedMovies ++ seedMovies)) ∧
    ((∀ m ∈ seedMovies, m.ID ≠ "9") ∧
      getMovie seedMovies "9" = (⟨404, Payload.text "Movie not found"⟩, seedMovies)) :=
  ⟨⟨by decide, (getMovie_first_match (seedMovies ++ seedMovies) "2").1 (by decide)⟩,
   ⟨by decide, (getMovie_first_match seedMovies "9").2 (by decide)⟩⟩

/-- C9. Identifier uniqueness is an invariant: the seeded collection has
pairwise distinct identifiers; every request (List, Get, Create with a
generated identifier not already present, Update with any body, Delete) maps a
collection with pairwise distinct identifiers to one with pairwise distinct
identifiers; hence every reachable collection has pairwise distinct
identifiers. -/
theorem identifiers_unique_invariant (decode : String → Option Movie) :
    (ids seedMovies).Nodup ∧
    (∀ (c : List Movie) (req : Request), (ids c).Nodup → FreshCreate c req →
      (ids (handle decode c req).2).Nodup) ∧
    (∀ c : List Movie, Reachable decode c → (ids c).Nodup) :=
  ⟨seedMovies_nodup, handle_nodup decode, reachable_nodup decode⟩

theorem identifiers_unique_invariant_witness :
    (ids seedMovies).Nodup ∧
    FreshCreate seedMovies (Request.update "1" "three-with-id") ∧
    (ids (handle sampleDecode seedMovies
      (Request.update "1" "three-with-id")).2).Nodup ∧
    Reachable sampleDecode
      (handle sampleDecode seedMovies (Request.update "1" "three-with-id")).2 :=
  ⟨by decide, by decide,
    (identifiers_unique_invariant sampleDecode).2.1 seedMovies
      (Request.update "1" "three-with-id") (by decide) (by decide),
    Reachable.step _ _ Reachable.seed (by decide)⟩

/-- C10. Update is not atomic on a malformed body: when some record of `c`
carries `id` and the body does not decode, `updateMovie id` answers 400 (with
the message "Invalid request body") and the resulting collection is `c` with
the first record whose identifier is `id` removed and nothing put back. -/
theorem updateMovie_malformed (decode : String → Option Movie) (c : List Movie)
    (id body : String) (hid : ∃ m ∈ c, m.ID = id) (hb : decode body = none) :
    ∃ pre old post,
      c = pre ++ old :: post ∧ old.ID = id ∧ (∀ x ∈ pre, x.ID ≠ id) ∧
      updateMovie decode c id body =
        (⟨400, Payload.text "Invalid request body"⟩, pre ++ post) ∧
      (updateMovie decode c id body).2.length + 1 = c.length := by
  obtain ⟨pre, old, post, hc, hold, hpre⟩ := exists_first_match id c hid
  subst hc
  have hu := updateMovie_first decode id body pre old post hpre hold
  rw [hb] at hu
  refine ⟨pre, old, post, rfl, hold, hpre, ?_, ?_⟩
  · rw [hu]
    rfl
  · rw [hu]
    simp
    omega

theorem updateMovie_malformed_witness :
    (∃ m ∈ seedMovies, m.ID = "1") ∧ sampleDecode "zzz" = none ∧
    ∃ pre old post,
      seedMovies = pre ++ old :: post ∧ old.ID = "1" ∧ (∀ x ∈ pre, x.ID ≠ "1") ∧
      updateMovie sampleDecode seedMovies "1" "zzz" =
        (⟨400, Payload.text "Invalid request body"⟩, pre ++ post) ∧
      (updateMovie sampleDecode seedMovies "1" "zzz").2.length + 1 =
        seedMovies.length :=
  ⟨by decide, by decide,
    updateMovie_malformed sampleDecode seedMovies "1" "zzz" (by decide) (by decide)⟩

end GoMovies
